import Mathlib

/-!
# GoOffReg: the binding layer over `offreg.dll`

A shallow embedding of `offreg.go` and `GetNtVersionNumbers.go`.

* A machine word (`uintptr`) is a natural number; the only arithmetic the
  package performs on words is the truncation `uint32(r1)`, written `% 2 ^ 32`.
* A `uint32` is a natural number below `2 ^ 32`.
* A Go pointer is the address it holds; `nil` holds address `0`.
* The foreign side (the library search, the native procedures, the memory and
  hive state they act on) is a parameter `Env σ`; a binding is a function
  from the machine state before the call to the state after it, or `none`
  when the Go code panics.
-/

namespace GoOffReg

/-! ## Machine integers and pointers -/

/-- Go `uint32`. -/
abbrev Uint32 := Fin (2 ^ 32)

/-- Go `uintptr`: one machine word of the target (32 or 64 bits wide). -/
abbrev Uintptr := Nat

/-- The conversion `uint32(x)` of a word: the low 32 bits. -/
def uint32 (x : Uintptr) : Uint32 := ⟨x % 2 ^ 32, Nat.mod_lt x (by decide)⟩

/-- The conversion `uintptr(x)` of a `uint32`: zero extension to the word,
which is at least 32 bits wide on every target, so the value is kept. -/
def uintptr (x : Uint32) : Uintptr := x.val

/-- A Go pointer (`*uint16`, `*byte`, `*uint32`, `*ORHKEY`, `*FileTime`,
`*windows.SECURITY_DESCRIPTOR`), carried as the address it holds. -/
structure Pointer where
  addr : Nat
  deriving DecidableEq, Repr

/-- Go `nil`. -/
def Pointer.null : Pointer := ⟨0⟩

/-- The conversion `uintptr(unsafe.Pointer(p))`: the address held by `p`. -/
def Pointer.toUintptr (p : Pointer) : Uintptr := p.addr

/-- `type ORHKEY uintptr`. -/
abbrev ORHKEY := Uintptr

/-! ## Constants (`offreg.go` lines 11-26 and 88-92) -/

def REG_NONE : Nat := 0
def REG_SZ : Nat := 1
def REG_EXPAND_SZ : Nat := 2
def REG_BINARY : Nat := 3
def REG_DWORD : Nat := 4
def REG_DWORD_LITTLE_ENDIAN : Nat := 4
def REG_DWORD_BIG_ENDIAN : Nat := 5
def REG_LINK : Nat := 6
def REG_MULTI_SZ : Nat := 7
def REG_RESOURCE_LIST : Nat := 8
def REG_FULL_RESOURCE_DESCRIPTOR : Nat := 9
def REG_RESOURCE_REQUIREMENTS_LIST : Nat := 10
def REG_QWORD : Nat := 11
def REG_QWORD_LITTLE_ENDIAN : Nat := 11

/-- The fourteen tag constants with their Go identifiers, in declaration order. -/
def regTags : List (String × Nat) :=
  [("REG_NONE", REG_NONE), ("REG_SZ", REG_SZ), ("REG_EXPAND_SZ", REG_EXPAND_SZ),
   ("REG_BINARY", REG_BINARY), ("REG_DWORD", REG_DWORD),
   ("REG_DWORD_LITTLE_ENDIAN", REG_DWORD_LITTLE_ENDIAN),
   ("REG_DWORD_BIG_ENDIAN", REG_DWORD_BIG_ENDIAN), ("REG_LINK", REG_LINK),
   ("REG_MULTI_SZ", REG_MULTI_SZ), ("REG_RESOURCE_LIST", REG_RESOURCE_LIST),
   ("REG_FULL_RESOURCE_DESCRIPTOR", REG_FULL_RESOURCE_DESCRIPTOR),
   ("REG_RESOURCE_REQUIREMENTS_LIST", REG_RESOURCE_REQUIREMENTS_LIST),
   ("REG_QWORD", REG_QWORD), ("REG_QWORD_LITTLE_ENDIAN", REG_QWORD_LITTLE_ENDIAN)]

/-- The two documented aliases: a pair of distinct identifiers that may share a value. -/
def isAlias (a b : String) : Bool :=
  (a == "REG_DWORD" && b == "REG_DWORD_LITTLE_ENDIAN") ||
  (a == "REG_DWORD_LITTLE_ENDIAN" && b == "REG_DWORD") ||
  (a == "REG_QWORD" && b == "REG_QWORD_LITTLE_ENDIAN") ||
  (a == "REG_QWORD_LITTLE_ENDIAN" && b == "REG_QWORD")

def ERROR_SUCCESS : Nat := 0
def ERROR_MORE_DATA : Nat := 234
def ERROR_NO_MORE_ITEMS : Nat := 259

/-! ## The OS-version helper (`GetNtVersionNumbers.go`) -/

/-- `GetWindowsVersion`, over the pair `(ver, err)` that `syscall.GetVersion()`
returned (`err = none` is Go's `nil` error). `none` is the panic of the error
branch. -/
def GetWindowsVersion (ver : Uint32) (err : Option String) : Option (Uint32 × Uint32) :=
  match err with
  | some _ => none
  | none => some (uint32 (ver.val &&& 0xFF), uint32 ((ver.val >>> 8) &&& 0xFF))

/-! ## The library loader (`offreg.go` lines 28-78) -/

/-- The part of `windows.LazyDLL` the package uses: the library's file name. -/
structure LazyDLL where
  Name : String
  deriving DecidableEq, Repr

/-- The part of `windows.LazyProc` the package uses: the library and the exported name. -/
structure LazyProc where
  l : LazyDLL
  Name : String
  deriving DecidableEq, Repr

/-- `windows.NewLazyDLL(name)`: nothing is loaded yet. -/
def NewLazyDLL (name : String) : LazyDLL := ⟨name⟩

/-- `d.NewProc(name)`: nothing is resolved yet. -/
def LazyDLL.NewProc (d : LazyDLL) (name : String) : LazyProc := ⟨d, name⟩

/-- The package-level `var` block: the library and the nineteen procedures. -/
structure Globals where
  offreg : LazyDLL
  orCloseHive : LazyProc
  orCloseKey : LazyProc
  orCreateHive : LazyProc
  orCreateKey : LazyProc
  orDeleteKey : LazyProc
  orDeleteValue : LazyProc
  orEnumKey : LazyProc
  orEnumValue : LazyProc
  orGetKeySecurity : LazyProc
  orGetValue : LazyProc
  orGetVersion : LazyProc
  orGetVirtualFlags : LazyProc
  orOpenHive : LazyProc
  orOpenKey : LazyProc
  orQueryInfoKey : LazyProc
  orSaveHive : LazyProc
  orSetKeySecurity : LazyProc
  orSetValue : LazyProc
  orSetVirtualFlags : LazyProc
  deriving Repr

/-- `func init()`: the values of the package variables once the package is initialised. -/
def init : Globals :=
  let offreg := NewLazyDLL "offreg.dll"
  { offreg := offreg
    orCloseHive := offreg.NewProc "ORCloseHive"
    orCloseKey := offreg.NewProc "ORCloseKey"
    orCreateHive := offreg.NewProc "ORCreateHive"
    orCreateKey := offreg.NewProc "ORCreateKey"
    orDeleteKey := offreg.NewProc "ORDeleteKey"
    orDeleteValue := offreg.NewProc "ORDeleteValue"
    orEnumKey := offreg.NewProc "OREnumKey"
    orEnumValue := offreg.NewProc "OREnumValue"
    orGetKeySecurity := offreg.NewProc "ORGetKeySecurity"
    orGetValue := offreg.NewProc "ORGetValue"
    orGetVersion := offreg.NewProc "ORGetVersion"
    orGetVirtualFlags := offreg.NewProc "ORGetVirtualFlags"
    orOpenHive := offreg.NewProc "OROpenHive"
    orOpenKey := offreg.NewProc "OROpenKey"
    orQueryInfoKey := offreg.NewProc "ORQueryInfoKey"
    orSaveHive := offreg.NewProc "ORSaveHive"
    orSetKeySecurity := offreg.NewProc "ORSetKeySecurity"
    orSetValue := offreg.NewProc "ORSetValue"
    orSetVirtualFlags := offreg.NewProc "ORSetVirtualFlags" }

/-- The procedures the `var` block holds, in declaration order. -/
def Globals.procs (g : Globals) : List LazyProc :=
  [g.orCloseHive, g.orCloseKey, g.orCreateHive, g.orCreateKey, g.orDeleteKey,
   g.orDeleteValue, g.orEnumKey, g.orEnumValue, g.orGetKeySecurity, g.orGetValue,
   g.orGetVersion, g.orGetVirtualFlags, g.orOpenHive, g.orOpenKey, g.orQueryInfoKey,
   g.orSaveHive, g.orSetKeySecurity, g.orSetValue, g.orSetVirtualFlags]

/-! ## The foreign side -/

/-- The three results of `syscall.SyscallN`: `r1`, `r2` and the error number. -/
structure SysResult where
  r1 : Uintptr
  r2 : Uintptr
  err : Uintptr
  deriving DecidableEq, Repr

/-- The foreign side of a process. `σ` is the state the native code acts on
(the memory behind the pointers, the open hives, the files). -/
structure Env (σ : Type) where
  /-- The OS loader: the address of an exported name of a library, `none`
  when the library or the name cannot be resolved. -/
  find : String → String → Option Uintptr
  /-- The native code at an address, run on the argument words. -/
  native : Uintptr → List Uintptr → σ → SysResult × σ

/-- What a binding does that is visible outside it. -/
inductive Event where
  | syscall (trap : Uintptr) (args : List Uintptr)
  | log (r1 r2 err : Uintptr)
  deriving DecidableEq, Repr

/-- The state a binding runs in: the foreign state and the events so far. -/
structure Machine (σ : Type) where
  world : σ
  out : List Event

/-- `p.Addr()`: the resolved address; `none` is the panic of `mustFind`.
Resolution is cached by the library, which a pure `find` already models. -/
def LazyProc.Addr {σ : Type} (p : LazyProc) (env : Env σ) : Option Uintptr :=
  env.find p.l.Name p.Name

/-- `syscall.SyscallN(trap, args...)`: one foreign call. -/
def SyscallN {σ : Type} (env : Env σ) (trap : Uintptr) (args : List Uintptr)
    (m : Machine σ) : SysResult × Machine σ :=
  let r := env.native trap args m.world
  (r.1, ⟨r.2, m.out ++ [Event.syscall trap args]⟩)

/-- `log.Println(r1, r2, err)`: one log line. -/
def logPrintln {σ : Type} (r1 r2 err : Uintptr) (m : Machine σ) : Machine σ :=
  ⟨m.world, m.out ++ [Event.log r1 r2 err]⟩

/-! ## The call surface (`offreg.go` lines 94-475)

Each binding is written as in the source: resolve the procedure, make the one
foreign call on the converted arguments, return `uint32(r1)`. -/

/-- `ORCloseHive` (lines 95-103). -/
def ORCloseHive {σ : Type} (env : Env σ)
    (handle : ORHKEY)
    (m : Machine σ) : Option (Uint32 × Machine σ) := do
  let trap ← init.orCloseHive.Addr env
  let (r, m) := SyscallN env trap
    [handle] m
  pure (uint32 r.r1, m)

/-- `ORCloseKey` (lines 106-114). -/
def ORCloseKey {σ : Type} (env : Env σ)
    (handle : ORHKEY)
    (m : Machine σ) : Option (Uint32 × Machine σ) := do
  let trap ← init.orCloseKey.Addr env
  let (r, m) := SyscallN env trap
    [handle] m
  pure (uint32 r.r1, m)

/-- `ORCreateHive` (lines 117-125). -/
def ORCreateHive {σ : Type} (env : Env σ)
    (phkResult : Pointer)
    (m : Machine σ) : Option (Uint32 × Machine σ) := do
  let trap ← init.orCreateHive.Addr env
  let (r, m) := SyscallN env trap
    [phkResult.toUintptr] m
  pure (uint32 r.r1, m)

/-- `ORCreateKey` (lines 128-154). -/
def ORCreateKey {σ : Type} (env : Env σ)
    (handle : ORHKEY) (lpSubKey lpName : Pointer) (dwOptions : Uint32)
    (pSecurityDescriptor phkResult pdwDisposition : Pointer)
    (m : Machine σ) : Option (Uint32 × Machine σ) := do
  let trap ← init.orCreateKey.Addr env
  let (r, m) := SyscallN env trap
    [handle, lpSubKey.toUintptr, lpName.toUintptr, uintptr dwOptions,
    pSecurityDescriptor.toUintptr, phkResult.toUintptr, pdwDisposition.toUintptr] m
  pure (uint32 r.r1, m)

/-- `ORDeleteKey` (lines 157-168). -/
def ORDeleteKey {σ : Type} (env : Env σ)
    (handle : ORHKEY) (lpHivePath : Pointer)
    (m : Machine σ) : Option (Uint32 × Machine σ) := do
  let trap ← init.orDeleteKey.Addr env
  let (r, m) := SyscallN env trap
    [handle, lpHivePath.toUintptr] m
  pure (uint32 r.r1, m)

/-- `ORDeleteValue` (lines 171-182). -/
def ORDeleteValue {σ : Type} (env : Env σ)
    (handle : ORHKEY) (lpValueName : Pointer)
    (m : Machine σ) : Option (Uint32 × Machine σ) := do
  let trap ← init.orDeleteValue.Addr env
  let (r, m) := SyscallN env trap
    [handle, lpValueName.toUintptr] m
  pure (uint32 r.r1, m)

/-- `OREnumKey` (lines 185-211). -/
def OREnumKey {σ : Type} (env : Env σ)
    (handle : ORHKEY) (dwIndex : Uint32)
    (lpName lpcName lpClass lpcClass lpftLastWriteTime : Pointer)
    (m : Machine σ) : Option (Uint32 × Machine σ) := do
  let trap ← init.orEnumKey.Addr env
  let (r, m) := SyscallN env trap
    [handle, uintptr dwIndex, lpName.toUintptr, lpcName.toUintptr, lpClass.toUintptr,
    lpcClass.toUintptr, lpftLastWriteTime.toUintptr] m
  pure (uint32 r.r1, m)

/-- `OREnumValue` (lines 214-241). -/
def OREnumValue {σ : Type} (env : Env σ)
    (handle : ORHKEY) (dwIndex : Uint32)
    (lpValueName lpcValueName lpType lpData lpcbData : Pointer)
    (m : Machine σ) : Option (Uint32 × Machine σ) := do
  let trap ← init.orEnumValue.Addr env
  let (r, m) := SyscallN env trap
    [handle, uintptr dwIndex, lpValueName.toUintptr, lpcValueName.toUintptr, lpType.toUintptr,
    lpData.toUintptr, lpcbData.toUintptr] m
  pure (uint32 r.r1, m)

/-- `ORGetKeySecurity` (lines 244-268). -/
def ORGetKeySecurity {σ : Type} (env : Env σ)
    (handle : ORHKEY) (dwIndex : Uint32)
    (lpValueName lpcValueName lpType lpData lpcbData : Pointer)
    (m : Machine σ) : Option (Uint32 × Machine σ) := do
  let trap ← init.orGetKeySecurity.Addr env
  let (r, m) := SyscallN env trap
    [handle, uintptr dwIndex, lpValueName.toUintptr, lpcValueName.toUintptr, lpType.toUintptr,
    lpData.toUintptr, lpcbData.toUintptr] m
  let m := logPrintln r.r1 r.r2 r.err m
  pure (uint32 r.r1, m)

/-- `ORGetValue` (lines 271-294). -/
def ORGetValue {σ : Type} (env : Env σ)
    (handle : ORHKEY) (lpSubKey lpValue pdwType pvData pcbData : Pointer)
    (m : Machine σ) : Option (Uint32 × Machine σ) := do
  let trap ← init.orGetValue.Addr env
  let (r, m) := SyscallN env trap
    [handle, lpSubKey.toUintptr, lpValue.toUintptr, pdwType.toUintptr, pvData.toUintptr,
    pcbData.toUintptr] m
  pure (uint32 r.r1, m)

/-- `ORGetVersion` (lines 297-307). -/
def ORGetVersion {σ : Type} (env : Env σ)
    (pdwMajorVersion pdwMinorVersion : Pointer)
    (m : Machine σ) : Option (Unit × Machine σ) := do
  let trap ← init.orGetVersion.Addr env
  let (_, m) := SyscallN env trap
    [pdwMajorVersion.toUintptr, pdwMinorVersion.toUintptr] m
  pure ((), m)

/-- `ORGetVirtualFlags` (lines 310-321). -/
def ORGetVirtualFlags {σ : Type} (env : Env σ)
    (handle : ORHKEY) (pdwFlags : Pointer)
    (m : Machine σ) : Option (Uint32 × Machine σ) := do
  let trap ← init.orGetVirtualFlags.Addr env
  let (r, m) := SyscallN env trap
    [handle, pdwFlags.toUintptr] m
  pure (uint32 r.r1, m)

/-- `OROpenHive` (lines 324-336). -/
def OROpenHive {σ : Type} (env : Env σ)
    (lpHivePath phkResult : Pointer)
    (m : Machine σ) : Option (Uint32 × Machine σ) := do
  let trap ← init.orOpenHive.Addr env
  let (r, m) := SyscallN env trap
    [lpHivePath.toUintptr, phkResult.toUintptr] m
  pure (uint32 r.r1, m)

/-- `OROpenKey` (lines 339-353). -/
def OROpenKey {σ : Type} (env : Env σ)
    (handle : ORHKEY) (lpSubKeyName phkResult : Pointer)
    (m : Machine σ) : Option (Uint32 × Machine σ) := do
  let trap ← init.orOpenKey.Addr env
  let (r, m) := SyscallN env trap
    [handle, lpSubKeyName.toUintptr, phkResult.toUintptr] m
  pure (uint32 r.r1, m)

/-- `ORQueryInfoKey` (lines 356-394). -/
def ORQueryInfoKey {σ : Type} (env : Env σ)
    (handle : ORHKEY)
    (lpClass lpcClass lpcSubKeys lpcMaxSubKeyLen lpcMaxClassLen lpcValues : Pointer)
    (lpcMaxValueNameLen lpcMaxValueLen lpcbSecurityDescriptor lpftLastWriteTime : Pointer)
    (m : Machine σ) : Option (Uint32 × Machine σ) := do
  let trap ← init.orQueryInfoKey.Addr env
  let (r, m) := SyscallN env trap
    [handle, lpClass.toUintptr, lpcClass.toUintptr, lpcSubKeys.toUintptr,
    lpcMaxSubKeyLen.toUintptr, lpcMaxClassLen.toUintptr, lpcValues.toUintptr,
    lpcMaxValueNameLen.toUintptr, lpcMaxValueLen.toUintptr, lpcbSecurityDescriptor.toUintptr,
    lpftLastWriteTime.toUintptr] m
  pure (uint32 r.r1, m)

/-- `ORSaveHive` (lines 397-417). -/
def ORSaveHive {σ : Type} (env : Env σ)
    (handle : ORHKEY) (lpHivePath : Pointer) (dwOsMajorVersion dwOsMinorVersion : Uint32)
    (m : Machine σ) : Option (Uint32 × Machine σ) := do
  let trap ← init.orSaveHive.Addr env
  let (r, m) := SyscallN env trap
    [handle, lpHivePath.toUintptr, uintptr dwOsMajorVersion, uintptr dwOsMinorVersion] m
  let m := if r.r1 ≠ 0 then logPrintln r.r1 r.r2 r.err m else m
  pure (uint32 r.r1, m)

/-- `ORSetKeySecurity` (lines 420-434). -/
def ORSetKeySecurity {σ : Type} (env : Env σ)
    (handle : ORHKEY) (SecurityInformation : Uint32) (pSecurityDescriptor : Pointer)
    (m : Machine σ) : Option (Uint32 × Machine σ) := do
  let trap ← init.orSetKeySecurity.Addr env
  let (r, m) := SyscallN env trap
    [handle, uintptr SecurityInformation, pSecurityDescriptor.toUintptr] m
  pure (uint32 r.r1, m)

/-- `ORSetValue` (lines 437-460). -/
def ORSetValue {σ : Type} (env : Env σ)
    (handle : ORHKEY) (lpValue : Pointer) (pdwType : Uint32) (pvData : Pointer)
    (pcbData : Uint32)
    (m : Machine σ) : Option (Uint32 × Machine σ) := do
  let trap ← init.orSetValue.Addr env
  let (r, m) := SyscallN env trap
    [handle, lpValue.toUintptr, uintptr pdwType, pvData.toUintptr, uintptr pcbData] m
  let m := if r.r1 ≠ 0 then logPrintln r.r1 r.r2 r.err m else m
  pure (uint32 r.r1, m)

/-- `ORSetVirtualFlags` (lines 463-475). -/
def ORSetVirtualFlags {σ : Type} (env : Env σ)
    (handle : ORHKEY) (dwFlags : Uint32)
    (m : Machine σ) : Option (Uint32 × Machine σ) := do
  let trap ← init.orSetVirtualFlags.Addr env
  let (r, m) := SyscallN env trap
    [handle, uintptr dwFlags] m
  pure (uint32 r.r1, m)

/-! ## Calls as data

To speak of every binding and every input at once, a call is reified: the
binding together with the values of its parameters. -/

/-- The nineteen bindings of the call surface. -/
inductive Binding where
  | ORCloseHive
  | ORCloseKey
  | ORCreateHive
  | ORCreateKey
  | ORDeleteKey
  | ORDeleteValue
  | OREnumKey
  | OREnumValue
  | ORGetKeySecurity
  | ORGetValue
  | ORGetVersion
  | ORGetVirtualFlags
  | OROpenHive
  | OROpenKey
  | ORQueryInfoKey
  | ORSaveHive
  | ORSetKeySecurity
  | ORSetValue
  | ORSetVirtualFlags
  deriving DecidableEq, Repr

/-- All bindings, in source order. -/
def Binding.all : List Binding :=
  [.ORCloseHive, .ORCloseKey, .ORCreateHive, .ORCreateKey, .ORDeleteKey, .ORDeleteValue,
   .OREnumKey, .OREnumValue, .ORGetKeySecurity, .ORGetValue, .ORGetVersion, .ORGetVirtualFlags,
   .OROpenHive, .OROpenKey, .ORQueryInfoKey, .ORSaveHive, .ORSetKeySecurity, .ORSetValue,
   .ORSetVirtualFlags]

/-- The Go identifier of a binding. -/
def Binding.name : Binding → String
  | .ORCloseHive => "ORCloseHive"
  | .ORCloseKey => "ORCloseKey"
  | .ORCreateHive => "ORCreateHive"
  | .ORCreateKey => "ORCreateKey"
  | .ORDeleteKey => "ORDeleteKey"
  | .ORDeleteValue => "ORDeleteValue"
  | .OREnumKey => "OREnumKey"
  | .OREnumValue => "OREnumValue"
  | .ORGetKeySecurity => "ORGetKeySecurity"
  | .ORGetValue => "ORGetValue"
  | .ORGetVersion => "ORGetVersion"
  | .ORGetVirtualFlags => "ORGetVirtualFlags"
  | .OROpenHive => "OROpenHive"
  | .OROpenKey => "OROpenKey"
  | .ORQueryInfoKey => "ORQueryInfoKey"
  | .ORSaveHive => "ORSaveHive"
  | .ORSetKeySecurity => "ORSetKeySecurity"
  | .ORSetValue => "ORSetValue"
  | .ORSetVirtualFlags => "ORSetVirtualFlags"

/-- How a parameter crosses the boundary: a handle by value, a 32-bit integer
by value, or a pointer. -/
inductive Kind where
  | handle
  | dword
  | pointer
  deriving DecidableEq, Repr

/-- One parameter of a binding with its value. -/
inductive Param where
  | handle (h : ORHKEY)
  | dword (v : Uint32)
  | pointer (p : Pointer)
  deriving DecidableEq, Repr

/-- The kind of a parameter. -/
def Param.kind : Param → Kind
  | .handle _ => .handle
  | .dword _ => .dword
  | .pointer _ => .pointer

/-- The value of a parameter as a number: a by-value parameter is its own
value, a pointer parameter is its address. -/
def Param.value : Param → Nat
  | .handle h => h
  | .dword v => v.val
  | .pointer p => p.addr

/-- One call of a binding: the binding and the values of its parameters, in
the order of the Go signature. -/
inductive Call where
  | ORCloseHive (handle : ORHKEY)
  | ORCloseKey (handle : ORHKEY)
  | ORCreateHive (phkResult : Pointer)
  | ORCreateKey (handle : ORHKEY) (lpSubKey lpName : Pointer) (dwOptions : Uint32)
      (pSecurityDescriptor phkResult pdwDisposition : Pointer)
  | ORDeleteKey (handle : ORHKEY) (lpHivePath : Pointer)
  | ORDeleteValue (handle : ORHKEY) (lpValueName : Pointer)
  | OREnumKey (handle : ORHKEY) (dwIndex : Uint32)
      (lpName lpcName lpClass lpcClass lpftLastWriteTime : Pointer)
  | OREnumValue (handle : ORHKEY) (dwIndex : Uint32)
      (lpValueName lpcValueName lpType lpData lpcbData : Pointer)
  | ORGetKeySecurity (handle : ORHKEY) (dwIndex : Uint32)
      (lpValueName lpcValueName lpType lpData lpcbData : Pointer)
  | ORGetValue (handle : ORHKEY) (lpSubKey lpValue pdwType pvData pcbData : Pointer)
  | ORGetVersion (pdwMajorVersion pdwMinorVersion : Pointer)
  | ORGetVirtualFlags (handle : ORHKEY) (pdwFlags : Pointer)
  | OROpenHive (lpHivePath phkResult : Pointer)
  | OROpenKey (handle : ORHKEY) (lpSubKeyName phkResult : Pointer)
  | ORQueryInfoKey (handle : ORHKEY)
      (lpClass lpcClass lpcSubKeys lpcMaxSubKeyLen lpcMaxClassLen lpcValues : Pointer)
      (lpcMaxValueNameLen lpcMaxValueLen lpcbSecurityDescriptor lpftLastWriteTime : Pointer)
  | ORSaveHive (handle : ORHKEY) (lpHivePath : Pointer) (dwOsMajorVersion dwOsMinorVersion : Uint32)
  | ORSetKeySecurity (handle : ORHKEY) (SecurityInformation : Uint32)
      (pSecurityDescriptor : Pointer)
  | ORSetValue (handle : ORHKEY) (lpValue : Pointer) (pdwType : Uint32) (pvData : Pointer)
      (pcbData : Uint32)
  | ORSetVirtualFlags (handle : ORHKEY) (dwFlags : Uint32)

/-- The binding a call is a call of. -/
def Call.binding : Call → Binding
  | .ORCloseHive .. => .ORCloseHive
  | .ORCloseKey .. => .ORCloseKey
  | .ORCreateHive .. => .ORCreateHive
  | .ORCreateKey .. => .ORCreateKey
  | .ORDeleteKey .. => .ORDeleteKey
  | .ORDeleteValue .. => .ORDeleteValue
  | .OREnumKey .. => .OREnumKey
  | .OREnumValue .. => .OREnumValue
  | .ORGetKeySecurity .. => .ORGetKeySecurity
  | .ORGetValue .. => .ORGetValue
  | .ORGetVersion .. => .ORGetVersion
  | .ORGetVirtualFlags .. => .ORGetVirtualFlags
  | .OROpenHive .. => .OROpenHive
  | .OROpenKey .. => .OROpenKey
  | .ORQueryInfoKey .. => .ORQueryInfoKey
  | .ORSaveHive .. => .ORSaveHive
  | .ORSetKeySecurity .. => .ORSetKeySecurity
  | .ORSetValue .. => .ORSetValue
  | .ORSetVirtualFlags .. => .ORSetVirtualFlags

/-- The parameters of a call, in the order of the Go signature. -/
def Call.params : Call → List Param
  | .ORCloseHive handle =>
    [.handle handle]
  | .ORCloseKey handle =>
    [.handle handle]
  | .ORCreateHive phkResult =>
    [.pointer phkResult]
  | .ORCreateKey handle lpSubKey lpName dwOptions pSecurityDescriptor phkResult
      pdwDisposition =>
    [.handle handle, .pointer lpSubKey, .pointer lpName, .dword dwOptions,
     .pointer pSecurityDescriptor, .pointer phkResult, .pointer pdwDisposition]
  | .ORDeleteKey handle lpHivePath =>
    [.handle handle, .pointer lpHivePath]
  | .ORDeleteValue handle lpValueName =>
    [.handle handle, .pointer lpValueName]
  | .OREnumKey handle dwIndex lpName lpcName lpClass lpcClass lpftLastWriteTime =>
    [.handle handle, .dword dwIndex, .pointer lpName, .pointer lpcName, .pointer lpClass,
     .pointer lpcClass, .pointer lpftLastWriteTime]
  | .OREnumValue handle dwIndex lpValueName lpcValueName lpType lpData lpcbData =>
    [.handle handle, .dword dwIndex, .pointer lpValueName, .pointer lpcValueName,
     .pointer lpType, .pointer lpData, .pointer lpcbData]
  | .ORGetKeySecurity handle dwIndex lpValueName lpcValueName lpType lpData lpcbData =>
    [.handle handle, .dword dwIndex, .pointer lpValueName, .pointer lpcValueName,
     .pointer lpType, .pointer lpData, .pointer lpcbData]
  | .ORGetValue handle lpSubKey lpValue pdwType pvData pcbData =>
    [.handle handle, .pointer lpSubKey, .pointer lpValue, .pointer pdwType, .pointer pvData,
     .pointer pcbData]
  | .ORGetVersion pdwMajorVersion pdwMinorVersion =>
    [.pointer pdwMajorVersion, .pointer pdwMinorVersion]
  | .ORGetVirtualFlags handle pdwFlags =>
    [.handle handle, .pointer pdwFlags]
  | .OROpenHive lpHivePath phkResult =>
    [.pointer lpHivePath, .pointer phkResult]
  | .OROpenKey handle lpSubKeyName phkResult =>
    [.handle handle, .pointer lpSubKeyName, .pointer phkResult]
  | .ORQueryInfoKey handle lpClass lpcClass lpcSubKeys lpcMaxSubKeyLen lpcMaxClassLen
      lpcValues lpcMaxValueNameLen lpcMaxValueLen lpcbSecurityDescriptor lpftLastWriteTime =>
    [.handle handle, .pointer lpClass, .pointer lpcClass, .pointer lpcSubKeys,
     .pointer lpcMaxSubKeyLen, .pointer lpcMaxClassLen, .pointer lpcValues,
     .pointer lpcMaxValueNameLen, .pointer lpcMaxValueLen, .pointer lpcbSecurityDescriptor,
     .pointer lpftLastWriteTime]
  | .ORSaveHive handle lpHivePath dwOsMajorVersion dwOsMinorVersion =>
    [.handle handle, .pointer lpHivePath, .dword dwOsMajorVersion, .dword dwOsMinorVersion]
  | .ORSetKeySecurity handle SecurityInformation pSecurityDescriptor =>
    [.handle handle, .dword SecurityInformation, .pointer pSecurityDescriptor]
  | .ORSetValue handle lpValue pdwType pvData pcbData =>
    [.handle handle, .pointer lpValue, .dword pdwType, .pointer pvData, .dword pcbData]
  | .ORSetVirtualFlags handle dwFlags =>
    [.handle handle, .dword dwFlags]

/-- Run a call. The result is `none` for `ORGetVersion`, which returns nothing,
and the returned status for the other eighteen. -/
def Call.run {σ : Type} (env : Env σ) (c : Call) (m : Machine σ) :
    Option (Option Uint32 × Machine σ) :=
  match c with
  | .ORCloseHive handle =>
    (GoOffReg.ORCloseHive env handle m).map fun x => (some x.1, x.2)
  | .ORCloseKey handle =>
    (GoOffReg.ORCloseKey env handle m).map fun x => (some x.1, x.2)
  | .ORCreateHive phkResult =>
    (GoOffReg.ORCreateHive env phkResult m).map fun x => (some x.1, x.2)
  | .ORCreateKey handle lpSubKey lpName dwOptions pSecurityDescriptor phkResult
      pdwDisposition =>
    (GoOffReg.ORCreateKey env handle lpSubKey lpName dwOptions pSecurityDescriptor phkResult
      pdwDisposition m).map fun x => (some x.1, x.2)
  | .ORDeleteKey handle lpHivePath =>
    (GoOffReg.ORDeleteKey env handle lpHivePath m).map fun x => (some x.1, x.2)
  | .ORDeleteValue handle lpValueName =>
    (GoOffReg.ORDeleteValue env handle lpValueName m).map fun x => (some x.1, x.2)
  | .OREnumKey handle dwIndex lpName lpcName lpClass lpcClass lpftLastWriteTime =>
    (GoOffReg.OREnumKey env handle dwIndex lpName lpcName lpClass lpcClass lpftLastWriteTime m).map
      fun x => (some x.1, x.2)
  | .OREnumValue handle dwIndex lpValueName lpcValueName lpType lpData lpcbData =>
    (GoOffReg.OREnumValue env handle dwIndex lpValueName lpcValueName lpType lpData lpcbData m).map
      fun x => (some x.1, x.2)
  | .ORGetKeySecurity handle dwIndex lpValueName lpcValueName lpType lpData lpcbData =>
    (GoOffReg.ORGetKeySecurity env handle dwIndex lpValueName lpcValueName lpType lpData lpcbData
      m).map fun x => (some x.1, x.2)
  | .ORGetValue handle lpSubKey lpValue pdwType pvData pcbData =>
    (GoOffReg.ORGetValue env handle lpSubKey lpValue pdwType pvData pcbData m).map fun x =>
      (some x.1, x.2)
  | .ORGetVersion pdwMajorVersion pdwMinorVersion =>
    (GoOffReg.ORGetVersion env pdwMajorVersion pdwMinorVersion m).map fun x => (none, x.2)
  | .ORGetVirtualFlags handle pdwFlags =>
    (GoOffReg.ORGetVirtualFlags env handle pdwFlags m).map fun x => (some x.1, x.2)
  | .OROpenHive lpHivePath phkResult =>
    (GoOffReg.OROpenHive env lpHivePath phkResult m).map fun x => (some x.1, x.2)
  | .OROpenKey handle lpSubKeyName phkResult =>
    (GoOffReg.OROpenKey env handle lpSubKeyName phkResult m).map fun x => (some x.1, x.2)
  | .ORQueryInfoKey handle lpClass lpcClass lpcSubKeys lpcMaxSubKeyLen lpcMaxClassLen
      lpcValues lpcMaxValueNameLen lpcMaxValueLen lpcbSecurityDescriptor lpftLastWriteTime =>
    (GoOffReg.ORQueryInfoKey env handle lpClass lpcClass lpcSubKeys lpcMaxSubKeyLen lpcMaxClassLen
      lpcValues lpcMaxValueNameLen lpcMaxValueLen lpcbSecurityDescriptor lpftLastWriteTime
      m).map fun x => (some x.1, x.2)
  | .ORSaveHive handle lpHivePath dwOsMajorVersion dwOsMinorVersion =>
    (GoOffReg.ORSaveHive env handle lpHivePath dwOsMajorVersion dwOsMinorVersion m).map fun x =>
      (some x.1, x.2)
  | .ORSetKeySecurity handle SecurityInformation pSecurityDescriptor =>
    (GoOffReg.ORSetKeySecurity env handle SecurityInformation pSecurityDescriptor m).map fun x =>
      (some x.1, x.2)
  | .ORSetValue handle lpValue pdwType pvData pcbData =>
    (GoOffReg.ORSetValue env handle lpValue pdwType pvData pcbData m).map fun x => (some x.1, x.2)
  | .ORSetVirtualFlags handle dwFlags =>
    (GoOffReg.ORSetVirtualFlags env handle dwFlags m).map fun x => (some x.1, x.2)

/-- The syscalls among the events, in order. -/
def syscallsOf : List Event → List (Uintptr × List Uintptr)
  | [] => []
  | .syscall trap args :: es => (trap, args) :: syscallsOf es
  | .log _ _ _ :: es => syscallsOf es

/-- The log lines among the events, in order. -/
def logsOf : List Event → List (Uintptr × Uintptr × Uintptr)
  | [] => []
  | .syscall _ _ :: es => logsOf es
  | .log r1 r2 err :: es => (r1, r2, err) :: logsOf es

/-! ## The documented side

The definitions of this section follow the documentation, not the Go code:
the export list of the specification and the native prototypes of the
Microsoft documentation, which the source quotes in a comment above each
signature. -/

/-- The exported procedure names the specification lists, in its order. -/
def exportedNames : List String :=
  ["ORCloseHive", "ORCloseKey", "ORCreateHive", "ORCreateKey", "ORDeleteKey", "ORDeleteValue",
   "OREnumKey", "OREnumValue", "ORGetKeySecurity", "ORGetValue", "ORGetVersion",
   "ORGetVirtualFlags", "OROpenHive", "OROpenKey", "ORQueryInfoKey", "ORSaveHive",
   "ORSetKeySecurity", "ORSetValue", "ORSetVirtualFlags"]

/-- The documented native prototype of each entry point, as the kinds of its
parameters in declared order (`ORHKEY` is a handle; `DWORD` and
`SECURITY_INFORMATION` are 32-bit integers by value; every `P...` type and
`const BYTE *` is a pointer). -/
def nativePrototype : Binding → List Kind
  | .ORCloseHive => [.handle]
  | .ORCloseKey => [.handle]
  | .ORCreateHive => [.pointer]
  | .ORCreateKey => [.handle, .pointer, .pointer, .dword, .pointer, .pointer, .pointer]
  | .ORDeleteKey => [.handle, .pointer]
  | .ORDeleteValue => [.handle, .pointer]
  | .OREnumKey => [.handle, .dword, .pointer, .pointer, .pointer, .pointer, .pointer]
  | .OREnumValue => [.handle, .dword, .pointer, .pointer, .pointer, .pointer, .pointer]
  | .ORGetKeySecurity => [.handle, .dword, .pointer, .pointer]
  | .ORGetValue => [.handle, .pointer, .pointer, .pointer, .pointer, .pointer]
  | .ORGetVersion => [.pointer, .pointer]
  | .ORGetVirtualFlags => [.handle, .pointer]
  | .OROpenHive => [.pointer, .pointer]
  | .OROpenKey => [.handle, .pointer, .pointer]
  | .ORQueryInfoKey =>
    [.handle, .pointer, .pointer, .pointer, .pointer, .pointer, .pointer, .pointer, .pointer,
     .pointer, .pointer]
  | .ORSaveHive => [.handle, .pointer, .dword, .dword]
  | .ORSetKeySecurity => [.handle, .dword, .pointer]
  | .ORSetValue => [.handle, .pointer, .dword, .pointer, .dword]
  | .ORSetVirtualFlags => [.handle, .dword]

/-- The number of arguments of each documented native prototype. -/
def documentedArity : Binding → Nat
  | .ORCloseHive => 1
  | .ORCloseKey => 1
  | .ORCreateHive => 1
  | .ORCreateKey => 7
  | .ORDeleteKey => 2
  | .ORDeleteValue => 2
  | .OREnumKey => 7
  | .OREnumValue => 7
  | .ORGetKeySecurity => 4
  | .ORGetValue => 6
  | .ORGetVersion => 2
  | .ORGetVirtualFlags => 2
  | .OROpenHive => 2
  | .OROpenKey => 3
  | .ORQueryInfoKey => 11
  | .ORSaveHive => 4
  | .ORSetKeySecurity => 3
  | .ORSetValue => 5
  | .ORSetVirtualFlags => 2

/-! ## What one call does -/

/-- The words a call hands to `SyscallN`: its parameters converted in order. -/
def Call.words (c : Call) : List Uintptr := c.params.map Param.value

/-- The log events a binding appends once the native result is known. -/
def logTail : Binding → SysResult → List Event
  | .ORGetKeySecurity, r => [Event.log r.r1 r.r2 r.err]
  | .ORSaveHive, r => if r.r1 ≠ 0 then [Event.log r.r1 r.r2 r.err] else []
  | .ORSetValue, r => if r.r1 ≠ 0 then [Event.log r.r1 r.r2 r.err] else []
  | _, _ => []

/-- The value a binding returns once the native result is known. -/
def retOf : Binding → SysResult → Option Uint32
  | .ORGetVersion, _ => none
  | _, r => some (uint32 r.r1)

/-! ## A concrete foreign side

Used to run the bindings on concrete inputs. -/

/-- A foreign side over a counter: `offreg.dll` exports the documented names,
each at an address of its own; every native procedure returns the result
`r` and bumps the counter. -/
def constEnv (r : SysResult) : Env Nat where
  find := fun lib name =>
    if lib = "offreg.dll" then (exportedNames.indexOf? name).map (fun i => 4096 + 16 * i)
    else none
  native := fun _ _ w => (r, w + 1)

/-- A foreign side that keeps a record: the same exports as `constEnv`; every
native procedure returns the result `r` and appends its own address and the
argument words it received to the foreign state. -/
def recordEnv (r : SysResult) : Env (List (Uintptr × List Uintptr)) where
  find := (constEnv r).find
  native := fun trap args w => (r, w ++ [(trap, args)])

/-- The machine state before the first call. -/
def startMachine : Machine Nat := ⟨0, []⟩

/-- What a run shows outside: the returned status, the foreign state, the
syscalls and the log lines. -/
def observe (x : Option (Option Uint32 × Machine Nat)) :
    Option (Option Nat × Nat × List (Uintptr × List Uintptr) ×
      List (Uintptr × Uintptr × Uintptr)) :=
  x.map fun y => (y.1.map Fin.val, y.2.world, syscallsOf y.2.out, logsOf y.2.out)

/-- Every binding, once its procedure resolves, makes one foreign call on its
converted parameters, appends its log events and returns. -/
theorem Call.run_resolved {σ : Type} (env : Env σ) (c : Call) (m : Machine σ) (a : Uintptr)
    (h : env.find "offreg.dll" c.binding.name = some a) :
    c.run env m =
      some (retOf c.binding (env.native a c.words m.world).1,
        ⟨(env.native a c.words m.world).2,
          m.out ++ Event.syscall a c.words ::
            logTail c.binding (env.native a c.words m.world).1⟩) := by
  cases c <;>
    simp only [Call.binding, Binding.name] at h <;>
    simp [Call.run, GoOffReg.ORCloseHive, GoOffReg.ORCloseKey, GoOffReg.ORCreateHive,
      GoOffReg.ORCreateKey, GoOffReg.ORDeleteKey, GoOffReg.ORDeleteValue, GoOffReg.OREnumKey,
      GoOffReg.OREnumValue, GoOffReg.ORGetKeySecurity, GoOffReg.ORGetValue, GoOffReg.ORGetVersion,
      GoOffReg.ORGetVirtualFlags, GoOffReg.OROpenHive, GoOffReg.OROpenKey,
      GoOffReg.ORQueryInfoKey, GoOffReg.ORSaveHive, GoOffReg.ORSetKeySecurity,
      GoOffReg.ORSetValue, GoOffReg.ORSetVirtualFlags, LazyProc.Addr, init, NewLazyDLL,
      LazyDLL.NewProc, h, SyscallN, logPrintln, retOf, logTail, Call.words, Call.params,
      Param.value, uintptr, Pointer.toUintptr, Call.binding] <;>
    split <;> simp_all

/-- A binding whose procedure does not resolve panics before any foreign call. -/
theorem Call.run_unresolved {σ : Type} (env : Env σ) (c : Call) (m : Machine σ)
    (h : env.find "offreg.dll" c.binding.name = none) : c.run env m = none := by
  cases c <;>
    simp only [Call.binding, Binding.name] at h <;>
    simp [Call.run, GoOffReg.ORCloseHive, GoOffReg.ORCloseKey, GoOffReg.ORCreateHive,
      GoOffReg.ORCreateKey, GoOffReg.ORDeleteKey, GoOffReg.ORDeleteValue, GoOffReg.OREnumKey,
      GoOffReg.OREnumValue, GoOffReg.ORGetKeySecurity, GoOffReg.ORGetValue, GoOffReg.ORGetVersion,
      GoOffReg.ORGetVirtualFlags, GoOffReg.OROpenHive, GoOffReg.OROpenKey,
      GoOffReg.ORQueryInfoKey, GoOffReg.ORSaveHive, GoOffReg.ORSetKeySecurity,
      GoOffReg.ORSetValue, GoOffReg.ORSetVirtualFlags, LazyProc.Addr, init, NewLazyDLL,
      LazyDLL.NewProc, h]

/-- The syscalls of two runs of events, one after the other. -/
theorem syscallsOf_append (xs ys : List Event) :
    syscallsOf (xs ++ ys) = syscallsOf xs ++ syscallsOf ys := by
  induction xs with
  | nil => rfl
  | cons e es ih => cases e <;> simp [syscallsOf, ih]

/-- The log lines of two runs of events, one after the other. -/
theorem logsOf_append (xs ys : List Event) :
    logsOf (xs ++ ys) = logsOf xs ++ logsOf ys := by
  induction xs with
  | nil => rfl
  | cons e es ih => cases e <;> simp [logsOf, ih]

/-- The log events a binding appends hold no syscall. -/
theorem syscallsOf_logTail (b : Binding) (r : SysResult) : syscallsOf (logTail b r) = [] := by
  cases b <;> simp [logTail, syscallsOf] <;> split <;> rfl

/-- The syscalls of a resolved call: the earlier ones and one more. -/
theorem syscallsOf_run_out {σ : Type} (m : Machine σ) (a : Uintptr) (ws : List Uintptr)
    (b : Binding) (r : SysResult) :
    syscallsOf (m.out ++ Event.syscall a ws :: logTail b r) = syscallsOf m.out ++ [(a, ws)] := by
  simp [syscallsOf_append, syscallsOf, syscallsOf_logTail]

/-! ## The claims -/

/-- C1: each of the eighteen status-returning bindings (all but `ORGetVersion`)
returns, for every first result word `r1` of the native procedure, exactly
`r1` truncated to 32 bits; so a word below `2 ^ 32` is returned as it is, and
native 0, 234 and 259 come back as 0, 234 and 259. -/
theorem status_is_truncated_r1 {σ : Type} (env : Env σ) (c : Call) (m : Machine σ)
    (a r1 : Uintptr) (hc : c.binding ≠ .ORGetVersion)
    (ha : env.find "offreg.dll" c.binding.name = some a)
    (hr : (env.native a (c.params.map Param.value) m.world).1.r1 = r1) :
    ∃ (s : Uint32) (m' : Machine σ), c.run env m = some (some s, m') ∧
      s.val = r1 % 2 ^ 32 ∧ (r1 < 2 ^ 32 → s.val = r1) ∧
      (r1 = 0 → s.val = 0) ∧ (r1 = 234 → s.val = 234) ∧ (r1 = 259 → s.val = 259) := by
  have hs : retOf c.binding (env.native a c.words m.world).1 = some (uint32 r1) := by
    rw [← hr]
    cases c <;> first | rfl | exact absurd rfl hc
  have hrun := Call.run_resolved env c m a ha
  rw [hs] at hrun
  refine ⟨_, _, hrun, rfl, ?_, ?_, ?_, ?_⟩
  · intro h
    exact Nat.mod_eq_of_lt h
  · intro h
    subst h
    rfl
  · intro h
    subst h
    rfl
  · intro h
    subst h
    rfl

/-- C1 at a concrete call: `ORSaveHive` on a native result 234. -/
theorem status_is_truncated_r1_witness :
    ∃ (s : Uint32) (m' : Machine Nat),
      (Call.ORSaveHive 7 ⟨8192⟩ ⟨10, by decide⟩ ⟨0, by decide⟩).run (constEnv ⟨234, 0, 0⟩)
          startMachine = some (some s, m') ∧
      s.val = 234 % 2 ^ 32 ∧ (234 < 2 ^ 32 → s.val = 234) ∧
      (234 = 0 → s.val = 0) ∧ (234 = 234 → s.val = 234) ∧ (234 = 259 → s.val = 259) :=
  status_is_truncated_r1 (constEnv ⟨234, 0, 0⟩)
    (Call.ORSaveHive 7 ⟨8192⟩ ⟨10, by decide⟩ ⟨0, by decide⟩) startMachine 4336 234
    (by decide) rfl rfl

/-- C2: for each of the eighteen bindings other than `ORGetKeySecurity` and
every input, the native procedure is run on one list of words, which is the
binding's parameters in signature order, each by-value parameter as its own
value and each pointer as its address; its length is the arity of the
documented prototype and the kinds of the parameters are those the prototype
declares, in its order. The foreign state after the call and the value
returned are those of the native procedure run on exactly these words. -/
theorem args_follow_prototype {σ : Type} (env : Env σ) (c : Call) (m : Machine σ)
    (a : Uintptr) (hc : c.binding ≠ .ORGetKeySecurity)
    (ha : env.find "offreg.dll" c.binding.name = some a) :
    ∃ (ret : Option Uint32) (m' : Machine σ) (args : List Uintptr),
      c.run env m = some (ret, m') ∧
      syscallsOf m'.out = syscallsOf m.out ++ [(a, args)] ∧
      m'.world = (env.native a args m.world).2 ∧
      ret = retOf c.binding (env.native a args m.world).1 ∧
      args = c.params.map Param.value ∧
      args.length = documentedArity c.binding ∧
      c.params.map Param.kind = nativePrototype c.binding := by
  refine ⟨_, _, c.words, Call.run_resolved env c m a ha, syscallsOf_run_out m a _ _ _, rfl,
    rfl, rfl, ?_, ?_⟩
  · cases c <;> first | rfl | exact absurd rfl hc
  · cases c <;> first | rfl | exact absurd rfl hc

/-- C2 at a concrete call: `ORSetValue` hands over handle, name, type, data
and the byte count by value, and the native side records having received
exactly these five words at the address of `ORSetValue`. -/
theorem args_follow_prototype_witness :
    ∃ (ret : Option Uint32) (m' : Machine (List (Uintptr × List Uintptr)))
      (args : List Uintptr),
      (Call.ORSetValue 7 ⟨8192⟩ ⟨1, by decide⟩ ⟨12288⟩ ⟨12, by decide⟩).run
          (recordEnv ⟨234, 0, 0⟩) ⟨[], []⟩ = some (ret, m') ∧
      syscallsOf m'.out = [] ++ [(4368, args)] ∧
      m'.world = [] ++ [(4368, args)] ∧
      ret = some (uint32 234) ∧
      args = [7, 8192, 1, 12288, 12] ∧
      args.length = 5 ∧
      [Kind.handle, Kind.pointer, Kind.dword, Kind.pointer, Kind.dword] =
        nativePrototype .ORSetValue :=
  args_follow_prototype (recordEnv ⟨234, 0, 0⟩)
    (Call.ORSetValue 7 ⟨8192⟩ ⟨1, by decide⟩ ⟨12288⟩ ⟨12, by decide⟩) ⟨[], []⟩ 4368
    (by decide) rfl

/-- C3 (the code at a concrete call): `ORGetKeySecurity` hands the native
procedure seven words, the seven parameters of its Go signature, where the
documented prototype declares four. -/
theorem ORGetKeySecurity_hands_seven_words :
    observe ((Call.ORGetKeySecurity 7 ⟨4, by decide⟩ ⟨8192⟩ ⟨12288⟩ .null .null .null).run
        (constEnv ⟨0, 0, 0⟩) startMachine) =
      some (some 0, 1, [(4224, [7, 4, 8192, 12288, 0, 0, 0])], [(0, 0, 0)]) ∧
    documentedArity .ORGetKeySecurity = 4 ∧
    nativePrototype .ORGetKeySecurity = [.handle, .dword, .pointer, .pointer] :=
  ⟨rfl, rfl, rfl⟩

/-- C4: the loader registers exactly nineteen procedures, all of the library
named `offreg.dll`; their exported names are the nineteen of the
specification, pairwise distinct, each the Go identifier of its binding; and
every binding invokes the procedure registered under its own name: it runs
the native code at the address resolved for the exported name equal to its
own name, on its converted parameters, takes the foreign state and the
returned value from that run, and makes no call at all when that name does
not resolve. So `ORCloseKey` runs the code at the address of `ORCloseKey`,
not the one at the address of `ORCloseHive`. -/
theorem loader_names_and_dispatch :
    init.offreg.Name = "offreg.dll" ∧
    init.procs.length = 19 ∧
    (∀ p ∈ init.procs, p.l = init.offreg) ∧
    init.procs.map LazyProc.Name = exportedNames ∧
    exportedNames.Nodup ∧
    Binding.all.map Binding.name = exportedNames ∧
    (∀ b : Binding, b ∈ Binding.all) ∧
    (∀ b₁ b₂ : Binding, b₁.name = b₂.name → b₁ = b₂) ∧
    (∀ (σ : Type) (env : Env σ) (c : Call) (m : Machine σ),
      (c.run env m).map (fun x => syscallsOf x.2.out) =
        (env.find "offreg.dll" c.binding.name).map
          (fun a => syscallsOf m.out ++ [(a, c.params.map Param.value)])) ∧
    (∀ (σ : Type) (env : Env σ) (c : Call) (m : Machine σ),
      (c.run env m).map (fun x => (x.1, x.2.world)) =
        (env.find "offreg.dll" c.binding.name).map
          (fun a =>
            (retOf c.binding (env.native a (c.params.map Param.value) m.world).1,
              (env.native a (c.params.map Param.value) m.world).2))) ∧
    (recordEnv ⟨0, 0, 0⟩).find "offreg.dll" "ORCloseHive" = some 4096 ∧
    (recordEnv ⟨0, 0, 0⟩).find "offreg.dll" "ORCloseKey" = some 4112 ∧
    ((Call.ORCloseKey 7).run (recordEnv ⟨0, 0, 0⟩) ⟨[], []⟩).map
        (fun x => (x.1, x.2.world, syscallsOf x.2.out)) =
      some (some (uint32 0), [(4112, [7])], [(4112, [7])]) := by
  refine ⟨rfl, rfl, by decide, rfl, by decide, rfl, ?_, ?_, ?_, ?_, rfl, rfl, rfl⟩
  · intro b
    cases b <;> decide
  · intro b₁ b₂
    cases b₁ <;> cases b₂ <;> decide
  · intro σ env c m
    cases h : env.find "offreg.dll" c.binding.name with
    | none => simp [Call.run_unresolved env c m h]
    | some a =>
      simp only [Call.run_resolved env c m a h, Option.map_some', syscallsOf_run_out]
      rfl
  · intro σ env c m
    cases h : env.find "offreg.dll" c.binding.name with
    | none => simp [Call.run_unresolved env c m h]
    | some a =>
      simp only [Call.run_resolved env c m a h, Option.map_some']
      rfl

/-- C5: for every binding and every pointer parameter of it, when the caller
passes `nil` there the native procedure is still invoked (once), the word
forwarded at that position is 0, every other forwarded word is still the
value of its own parameter, and the binding neither reads nor writes through
the pointer: the foreign state after the call is the one the native
procedure left, and the forwarded words are the same whatever the foreign
state holds. -/
theorem null_pointer_forwarded {σ : Type} (env : Env σ) (c : Call) (m : Machine σ)
    (a : Uintptr) (i : Nat) (ha : env.find "offreg.dll" c.binding.name = some a)
    (hi : c.params[i]? = some (.pointer .null)) :
    ∃ (ret : Option Uint32) (m' : Machine σ) (args : List Uintptr),
      c.run env m = some (ret, m') ∧
      syscallsOf m'.out = syscallsOf m.out ++ [(a, args)] ∧
      args[i]? = some 0 ∧
      (∀ j, j ≠ i → args[j]? = (c.params[j]?).map Param.value) ∧
      args.length = c.params.length ∧
      m'.world = (env.native a args m.world).2 ∧
      (∀ m₂ : Machine σ, ∃ (ret₂ : Option Uint32) (m₂' : Machine σ),
        c.run env m₂ = some (ret₂, m₂') ∧
        syscallsOf m₂'.out = syscallsOf m₂.out ++ [(a, args)]) := by
  refine ⟨_, _, c.words, Call.run_resolved env c m a ha, syscallsOf_run_out m a _ _ _,
    ?_, ?_, ?_, rfl, ?_⟩
  · simp [Call.words, List.getElem?_map, hi, Param.value, Pointer.null]
  · intro j _
    simp [Call.words, List.getElem?_map]
  · simp [Call.words]
  · intro m₂
    exact ⟨_, _, Call.run_resolved env c m₂ a ha, syscallsOf_run_out m₂ a _ _ _⟩

/-- C5 at a concrete call: `ORGetValue` with a `nil` data buffer (position 4). -/
theorem null_pointer_forwarded_witness :
    ∃ (ret : Option Uint32) (m' : Machine Nat) (args : List Uintptr),
      (Call.ORGetValue 7 .null ⟨8192⟩ ⟨12288⟩ .null ⟨16384⟩).run (constEnv ⟨0, 0, 0⟩)
          startMachine = some (ret, m') ∧
      syscallsOf m'.out = syscallsOf startMachine.out ++ [(4240, args)] ∧
      args[4]? = some 0 ∧
      (∀ j, j ≠ 4 → args[j]? =
        ((Call.ORGetValue 7 .null ⟨8192⟩ ⟨12288⟩ .null ⟨16384⟩).params[j]?).map Param.value) ∧
      args.length = 6 ∧
      m'.world = ((constEnv ⟨0, 0, 0⟩).native 4240 args startMachine.world).2 ∧
      (∀ m₂ : Machine Nat, ∃ (ret₂ : Option Uint32) (m₂' : Machine Nat),
        (Call.ORGetValue 7 .null ⟨8192⟩ ⟨12288⟩ .null ⟨16384⟩).run (constEnv ⟨0, 0, 0⟩) m₂ =
          some (ret₂, m₂') ∧
        syscallsOf m₂'.out = syscallsOf m₂.out ++ [(4240, args)]) :=
  null_pointer_forwarded (constEnv ⟨0, 0, 0⟩)
    (Call.ORGetValue 7 .null ⟨8192⟩ ⟨12288⟩ .null ⟨16384⟩) startMachine 4240 4 rfl rfl

/-- C6: for every 32-bit word `ver` that the OS-version call returns without
error, `GetWindowsVersion` returns the low byte as major and the next byte as
minor; both are at most 255 and `major + 256 * minor = ver mod 65536`. -/
theorem GetWindowsVersion_bytes (ver : Uint32) :
    ∃ major minor : Uint32, GetWindowsVersion ver none = some (major, minor) ∧
      major.val = ver.val % 256 ∧ minor.val = ver.val / 256 % 256 ∧
      major.val ≤ 255 ∧ minor.val ≤ 255 ∧
      major.val + 256 * minor.val = ver.val % 65536 := by
  have h1 : ver.val &&& 0xFF = ver.val % 256 := Nat.and_pow_two_sub_one_eq_mod ver.val 8
  have h2 : (ver.val >>> 8) &&& 0xFF = ver.val / 256 % 256 := by
    rw [Nat.shiftRight_eq_div_pow]
    exact Nat.and_pow_two_sub_one_eq_mod (ver.val / 2 ^ 8) 8
  have e1 : (uint32 (ver.val &&& 0xFF)).val = ver.val % 256 := by
    show (ver.val &&& 0xFF) % 2 ^ 32 = ver.val % 256
    rw [h1]
    omega
  have e2 : (uint32 ((ver.val >>> 8) &&& 0xFF)).val = ver.val / 256 % 256 := by
    show ((ver.val >>> 8) &&& 0xFF) % 2 ^ 32 = ver.val / 256 % 256
    rw [h2]
    omega
  refine ⟨_, _, rfl, e1, e2, ?_, ?_, ?_⟩
  · rw [e1]
    omega
  · rw [e2]
    omega
  · rw [e1, e2]
    omega

/-- C7: the value-type tags have the OS-fixed values 0 to 11, the two
documented aliases share 4 and 11, apart from those aliases the tags are
pairwise distinct, and together they cover every integer from 0 to 11. -/
theorem reg_tag_values :
    (REG_NONE = 0 ∧ REG_SZ = 1 ∧ REG_EXPAND_SZ = 2 ∧ REG_BINARY = 3 ∧
      REG_DWORD = 4 ∧ REG_DWORD_LITTLE_ENDIAN = 4 ∧ REG_DWORD_BIG_ENDIAN = 5 ∧
      REG_LINK = 6 ∧ REG_MULTI_SZ = 7 ∧ REG_RESOURCE_LIST = 8 ∧
      REG_FULL_RESOURCE_DESCRIPTOR = 9 ∧ REG_RESOURCE_REQUIREMENTS_LIST = 10 ∧
      REG_QWORD = 11 ∧ REG_QWORD_LITTLE_ENDIAN = 11) ∧
    regTags.length = 14 ∧
    (regTags.map Prod.fst).Nodup ∧
    (∀ x ∈ regTags, ∀ y ∈ regTags, x.2 = y.2 → x.1 = y.1 ∨ isAlias x.1 y.1 = true) ∧
    (∀ x ∈ regTags, x.2 ≤ 11) ∧
    (∀ n, n ≤ 11 → ∃ t ∈ regTags, t.2 = n) := by
  refine ⟨by decide, rfl, by decide, by decide, by decide, by decide⟩

/-- C8: the three named status constants are 0, 234 and 259, each fits in the
32-bit status word, and a status-returning binding whose native procedure
returns one of them returns a status equal to that constant. -/
theorem named_status_constants {σ : Type} (env : Env σ) (c : Call) (m : Machine σ)
    (a k : Uintptr) (hc : c.binding ≠ .ORGetVersion)
    (ha : env.find "offreg.dll" c.binding.name = some a)
    (hk : k ∈ [ERROR_SUCCESS, ERROR_MORE_DATA, ERROR_NO_MORE_ITEMS])
    (hr : (env.native a (c.params.map Param.value) m.world).1.r1 = k) :
    ERROR_SUCCESS = 0 ∧ ERROR_MORE_DATA = 234 ∧ ERROR_NO_MORE_ITEMS = 259 ∧
    ERROR_SUCCESS < 2 ^ 32 ∧ ERROR_MORE_DATA < 2 ^ 32 ∧ ERROR_NO_MORE_ITEMS < 2 ^ 32 ∧
    ∃ (s : Uint32) (m' : Machine σ), c.run env m = some (some s, m') ∧ s.val = k := by
  have hs : retOf c.binding (env.native a c.words m.world).1 = some (uint32 k) := by
    rw [← hr]
    cases c <;> first | rfl | exact absurd rfl hc
  have hrun := Call.run_resolved env c m a ha
  rw [hs] at hrun
  have hlt : k < 2 ^ 32 := by
    simp only [List.mem_cons, List.mem_singleton, List.not_mem_nil, or_false] at hk
    rcases hk with h | h | h <;> subst h <;> decide
  exact ⟨rfl, rfl, rfl, by decide, by decide, by decide, _, _, hrun, Nat.mod_eq_of_lt hlt⟩

/-- C8 at a concrete call: `OREnumKey` past the last subkey, native status 259. -/
theorem named_status_constants_witness :
    ERROR_SUCCESS = 0 ∧ ERROR_MORE_DATA = 234 ∧ ERROR_NO_MORE_ITEMS = 259 ∧
    ERROR_SUCCESS < 2 ^ 32 ∧ ERROR_MORE_DATA < 2 ^ 32 ∧ ERROR_NO_MORE_ITEMS < 2 ^ 32 ∧
    ∃ (s : Uint32) (m' : Machine Nat),
      (Call.OREnumKey 7 ⟨2, by decide⟩ ⟨8192⟩ ⟨12288⟩ .null .null .null).run
          (constEnv ⟨259, 0, 0⟩) startMachine = some (some s, m') ∧
      s.val = ERROR_NO_MORE_ITEMS :=
  named_status_constants (constEnv ⟨259, 0, 0⟩)
    (Call.OREnumKey 7 ⟨2, by decide⟩ ⟨8192⟩ ⟨12288⟩ .null .null .null) startMachine 4192
    ERROR_NO_MORE_ITEMS (by decide) rfl (by decide) rfl

/-- C9: every one of the nineteen bindings, once its procedure resolves, runs
the native code exactly once per call, at the address of its own procedure,
for every input and whatever the native procedure returns: the syscalls after
the call are the earlier ones and that single one, the foreign state after
the call is the state one run of that native procedure leaves from the state
before, and the value returned comes from the result of that run. -/
theorem one_native_call {σ : Type} (env : Env σ) (c : Call) (m : Machine σ) (a : Uintptr)
    (ha : env.find "offreg.dll" c.binding.name = some a) :
    ∃ (ret : Option Uint32) (m' : Machine σ) (args : List Uintptr),
      c.run env m = some (ret, m') ∧
      syscallsOf m'.out = syscallsOf m.out ++ [(a, args)] ∧
      (syscallsOf m'.out).length = (syscallsOf m.out).length + 1 ∧
      m'.world = (env.native a args m.world).2 ∧
      ret = retOf c.binding (env.native a args m.world).1 ∧
      args = c.params.map Param.value := by
  refine ⟨_, _, c.words, Call.run_resolved env c m a ha, syscallsOf_run_out m a _ _ _, ?_,
    rfl, rfl, rfl⟩
  rw [syscallsOf_run_out]
  simp

/-- C9 at a concrete call: `ORGetVersion`, with a native result word 259; the
native side records one run, at the address of `ORGetVersion`. -/
theorem one_native_call_witness :
    ∃ (ret : Option Uint32) (m' : Machine (List (Uintptr × List Uintptr)))
      (args : List Uintptr),
      (Call.ORGetVersion ⟨8192⟩ ⟨8196⟩).run (recordEnv ⟨259, 0, 0⟩) ⟨[], []⟩ =
        some (ret, m') ∧
      syscallsOf m'.out = [] ++ [(4256, args)] ∧
      (syscallsOf m'.out).length = 0 + 1 ∧
      m'.world = [] ++ [(4256, args)] ∧
      ret = none ∧
      args = [8192, 8196] :=
  one_native_call (recordEnv ⟨259, 0, 0⟩) (Call.ORGetVersion ⟨8192⟩ ⟨8196⟩) ⟨[], []⟩ 4256
    rfl

/-- C10 as stated fails, at two calls. On a 64-bit target the native result
word `2 ^ 32` is non-zero, so `ORSaveHive` writes its log line, while the
status it returns, the low 32 bits, is 0. And `ORGetKeySecurity`, which has no
test on `r1`, writes its log line on the native result 0 and returns status 0. -/
theorem log_iff_status_nonzero_fails :
    (2 : Nat) ^ 32 < 2 ^ 64 ∧
    observe ((Call.ORSaveHive 7 ⟨8192⟩ ⟨10, by decide⟩ ⟨0, by decide⟩).run
        (constEnv ⟨2 ^ 32, 0, 0⟩) startMachine) =
      some (some 0, 1, [(4336, [7, 8192, 10, 0])], [(2 ^ 32, 0, 0)]) ∧
    observe ((Call.ORGetKeySecurity 7 ⟨4, by decide⟩ ⟨8192⟩ ⟨12288⟩ .null .null .null).run
        (constEnv ⟨0, 0, 0⟩) startMachine) =
      some (some 0, 1, [(4224, [7, 4, 8192, 12288, 0, 0, 0])], [(0, 0, 0)]) :=
  ⟨by decide, rfl, rfl⟩

/-- C10 as amended: `ORSaveHive` and `ORSetValue` write one log line when, and
only when, the native first result word `r1` is non-zero (the word before its
truncation to the 32-bit status); `ORGetKeySecurity` writes one whenever `r1`
is non-zero; none of the other sixteen bindings ever writes a log line. -/
theorem log_iff_r1_nonzero {σ : Type} (env : Env σ) (c : Call) (m : Machine σ)
    (a : Uintptr) (r : SysResult) (ha : env.find "offreg.dll" c.binding.name = some a)
    (hr : (env.native a (c.params.map Param.value) m.world).1 = r) :
    ∃ (ret : Option Uint32) (m' : Machine σ), c.run env m = some (ret, m') ∧
      (c.binding = .ORSaveHive ∨ c.binding = .ORSetValue →
        (r.r1 ≠ 0 → logsOf m'.out = logsOf m.out ++ [(r.r1, r.r2, r.err)]) ∧
        (r.r1 = 0 → logsOf m'.out = logsOf m.out)) ∧
      (c.binding = .ORGetKeySecurity →
        r.r1 ≠ 0 → logsOf m'.out = logsOf m.out ++ [(r.r1, r.r2, r.err)]) ∧
      (c.binding ≠ .ORSaveHive → c.binding ≠ .ORSetValue →
        c.binding ≠ .ORGetKeySecurity → logsOf m'.out = logsOf m.out) := by
  have hr' : (env.native a c.words m.world).1 = r := hr
  refine ⟨_, _, Call.run_resolved env c m a ha, ?_, ?_, ?_⟩
  · intro hb
    rw [hr']
    rcases hb with hb | hb <;> rw [hb] <;> constructor <;> intro h <;>
      simp [logsOf_append, logsOf, logTail, h]
  · intro hb h
    rw [hr', hb]
    simp [logsOf_append, logsOf, logTail]
  · intro h1 h2 h3
    rw [hr']
    cases c <;> first
      | exact absurd rfl h1
      | exact absurd rfl h2
      | exact absurd rfl h3
      | simp [logsOf_append, logsOf, logTail, Call.binding]

/-- C10 as amended, at a concrete call: `ORSetValue` on native result 234. -/
theorem log_iff_r1_nonzero_witness :
    ∃ (ret : Option Uint32) (m' : Machine Nat),
      (Call.ORSetValue 7 ⟨8192⟩ ⟨1, by decide⟩ ⟨12288⟩ ⟨12, by decide⟩).run
          (constEnv ⟨234, 0, 0⟩) startMachine = some (ret, m') ∧
      (Binding.ORSetValue = .ORSaveHive ∨ Binding.ORSetValue = .ORSetValue →
        ((234 : Nat) ≠ 0 → logsOf m'.out = logsOf startMachine.out ++ [(234, 0, 0)]) ∧
        ((234 : Nat) = 0 → logsOf m'.out = logsOf startMachine.out)) ∧
      (Binding.ORSetValue = .ORGetKeySecurity →
        (234 : Nat) ≠ 0 → logsOf m'.out = logsOf startMachine.out ++ [(234, 0, 0)]) ∧
      (Binding.ORSetValue ≠ .ORSaveHive → Binding.ORSetValue ≠ .ORSetValue →
        Binding.ORSetValue ≠ .ORGetKeySecurity → logsOf m'.out = logsOf startMachine.out) :=
  log_iff_r1_nonzero (constEnv ⟨234, 0, 0⟩)
    (Call.ORSetValue 7 ⟨8192⟩ ⟨1, by decide⟩ ⟨12288⟩ ⟨12, by decide⟩) startMachine 4368
    ⟨234, 0, 0⟩ rfl rfl

end GoOffReg
